import Mathlib

/-!
Verification of git-maestro's state-driven action engine.

We give a shallow embedding of the core of the repository:
`git_maestro/state.py` (the `RepoState` snapshot and fact cache),
`git_maestro/menu.py` (the applicability filter, menu presentation and
driver step), `git_maestro/actions/refresh_github_actions.py` together
with `fetch_github_actions.py` (the fact-cache invalidation protocol),
and `git_maestro/mcp_server.py` (the line-based JSON-RPC dispatch).

External collaborators (GitPython, the filesystem, the GitHub API, the
JSON parser) are modelled as explicit environment records whose fields
record the outcome of each probe the Python code performs, including
the probes that raise an exception that the code catches.
-/

namespace GitMaestro

/-- Values stored in the `facts` cache.  The spec's design notes list the
value kinds actually used: booleans, integers, strings, `None`, and the
list of failed-job records written by the GitHub Actions fetch action. -/
inductive FactValue where
  | bool (b : Bool)
  | int (n : Int)
  | str (s : String)
  | null
  | jobs (l : List (Int × String × String))
deriving DecidableEq, Repr

/-- Python `str.startswith`, on explicit character lists:
`list_starts pat cs` is true when `pat` is an initial segment of `cs`. -/
def list_starts : List Char → List Char → Bool
  | [], _ => true
  | _ :: _, [] => false
  | a :: xs, b :: ys => a == b && list_starts xs ys

/-- Python `key.startswith(pre)`. -/
def startswith (key pre : String) : Bool :=
  list_starts pre.data key.data

/-- Python `sub in hay` (substring containment), on character lists. -/
def list_sub (needle : List Char) : List Char → Bool
  | [] => needle.isEmpty
  | c :: rest => list_starts needle (c :: rest) || list_sub needle rest

/-- Python `sub in hay` on strings. -/
def contains_sub (hay sub : String) : Bool :=
  list_sub sub.data hay.data

/-- Python `s.lower()` (character-wise lowering). -/
def str_lower (s : String) : String :=
  String.mk (s.data.map Char.toLower)

/-- A Python `dict` from string keys to fact values, as an insertion-ordered
association list with unique keys (lookup returns the first match, which for
a dict built through `facts_insert` is the only one). -/
abbrev Facts := List (String × FactValue)

/-- One `dict` assignment `facts[k] = v`: replace the value in place when the
key is present, append otherwise (Python dicts preserve insertion order). -/
def facts_insert (m : Facts) (k : String) (v : FactValue) : Facts :=
  if m.any (fun kv => kv.1 == k) then
    m.map (fun kv => if kv.1 == k then (k, v) else kv)
  else m ++ [(k, v)]

/-- `dict.get(k)`: first (= only) binding of `k`. -/
def facts_get? (m : Facts) (k : String) : Option FactValue :=
  match m with
  | [] => none
  | kv :: rest => if kv.1 == k then some kv.2 else facts_get? rest k

/-- The `RepoState` object of `git_maestro/state.py`: the structural snapshot
fields plus the `facts` cache.  The `repo` handle (a GitPython object) is not
modelled; no claim mentions it. -/
structure RepoState where
  path : String
  is_git_repo : Bool
  has_commits : Bool
  has_readme : Bool
  has_gitignore : Bool
  has_remote : Bool
  remote_url : Option String
  branch_name : Option String
  is_clean : Bool
  untracked_files : List String
  modified_files : List String
  facts : Facts
deriving DecidableEq, Repr

/-- The field defaults assigned by `RepoState.__init__` before it calls
`_detect_state` (state.py lines 12-29). -/
def init_state (p : String) : RepoState :=
  { path := p
    is_git_repo := false
    has_commits := false
    has_readme := false
    has_gitignore := false
    has_remote := false
    remote_url := none
    branch_name := none
    is_clean := true
    untracked_files := []
    modified_files := []
    facts := [] }

/-- Outcome of every probe `_detect_state` performs against GitPython and the
filesystem.

* `is_repo`: whether `git.Repo(path)` succeeds.  `InvalidGitRepositoryError`
  and its subclass `NoSuchPathError` (missing path) are the `false` case.
* `commits`: `none` when the `iter_commits`/`active_branch` block raises one
  of the caught exceptions (`ValueError`, `GitCommandError`); otherwise
  `some (has_commits, branch_name)`.
* `readme`, `gitignore`: the `exists()` filesystem checks.
* `remotes`: `none` when reading `repo.remotes` raises (caught by the bare
  `except`); otherwise the list of remote URLs in order.
* `status`: `none` when the working-tree status block raises a caught
  exception; otherwise `some (is_dirty, untracked_files, modified_files)`. -/
structure GitEnv where
  is_repo : Bool
  commits : Option (Bool × String)
  readme : Bool
  gitignore : Bool
  remotes : Option (List String)
  status : Option (Bool × List String × List String)
deriving DecidableEq, Repr

/-- `RepoState._detect_state` (state.py lines 31-78).  Crucially it assigns
only the fields its probes reach: when `git.Repo` raises, only `is_git_repo`
is set; when there are no commits the working-tree block is skipped and
`is_clean` / `untracked_files` / `modified_files` keep their previous values;
when the remotes probe raises, `remote_url` keeps its previous value; when
the remote list is empty, both remote fields keep their previous values. -/
def detect_state (env : GitEnv) (s : RepoState) : RepoState :=
  if env.is_repo then
    let cinfo : Bool × Option String :=
      match env.commits with
      | none => (false, none)
      | some hb => (hb.1, some hb.2)
    let rinfo : Bool × Option String :=
      match env.remotes with
      | none => (false, s.remote_url)
      | some [] => (s.has_remote, s.remote_url)
      | some (u :: _) => (true, some u)
    let sinfo : Bool × List String × List String :=
      if cinfo.1 then
        match env.status with
        | none => (true, [], [])
        | some dum => (!dum.1, dum.2.1, dum.2.2)
      else (s.is_clean, s.untracked_files, s.modified_files)
    { s with
      is_git_repo := true
      has_commits := cinfo.1
      branch_name := cinfo.2
      has_readme := env.readme
      has_gitignore := env.gitignore
      has_remote := rinfo.1
      remote_url := rinfo.2
      is_clean := sinfo.1
      untracked_files := sinfo.2.1
      modified_files := sinfo.2.2 }
  else
    { s with is_git_repo := false }

/-- `RepoState(path)`: `__init__` sets the defaults and runs `_detect_state`. -/
def mk_repo_state (p : String) (env : GitEnv) : RepoState :=
  detect_state env (init_state p)

/-- `RepoState.refresh` just re-runs `_detect_state` (state.py lines 80-82). -/
def refresh (env : GitEnv) (s : RepoState) : RepoState :=
  detect_state env s

/-- Environments that real git can produce: `git rev-list <branch>` on a
resolvable branch always lists at least the tip commit, so when the
commits/branch probe succeeds without an exception the repository has at
least one commit; a repository with zero commits (unborn `HEAD`) makes the
probe raise instead. -/
def git_realizable (env : GitEnv) : Bool :=
  match env.commits with
  | none => true
  | some hb => hb.1

/-- States an actual run can put a `RepoState` into through construction and
refreshes against realizable git environments. -/
inductive Reachable : RepoState → Prop where
  | constructed (p : String) (env : GitEnv) (h : git_realizable env = true) :
      Reachable (mk_repo_state p env)
  | refreshed (s : RepoState) (env : GitEnv) (h : git_realizable env = true)
      (hs : Reachable s) : Reachable (detect_state env s)

/-- `RepoState.has_fact` (state.py lines 84-86). -/
def RepoState.has_fact (s : RepoState) (fact_name : String) : Bool :=
  (facts_get? s.facts fact_name).isSome

/-- `RepoState.get_fact` (state.py lines 88-90). -/
def RepoState.get_fact (s : RepoState) (fact_name : String)
    (default : FactValue) : FactValue :=
  (facts_get? s.facts fact_name).getD default

/-- `RepoState.set_facts` (state.py lines 92-94): `dict.update`, merging the
given bindings in order. -/
def RepoState.set_facts (s : RepoState) (new : Facts) : RepoState :=
  { s with facts := new.foldl (fun m kv => facts_insert m kv.1 kv.2) s.facts }

/-- `RepoState.clear_fact` (state.py lines 96-98). -/
def RepoState.clear_fact (s : RepoState) (fact_name : String) : RepoState :=
  { s with facts := s.facts.filter (fun kv => !(kv.1 == fact_name)) }

/-- `RepoState.clear_facts_matching` (state.py lines 100-104): collect the
keys that start with the given string and delete them, which is the filter
keeping the non-matching entries in order. -/
def RepoState.clear_facts_matching (s : RepoState) (pre : String) : RepoState :=
  { s with facts := s.facts.filter (fun kv => !(startswith kv.1 pre)) }

/-- `RepoState.get_remote_type` (state.py lines 106-117).  Python's
`not self.remote_url` is true for `None` and for the empty string. -/
def RepoState.get_remote_type (s : RepoState) : Option String :=
  match s.remote_url with
  | none => none
  | some url =>
    if !s.has_remote || url == "" then none
    else
      let remote_lower := str_lower url
      if contains_sub remote_lower "github.com" then some "github"
      else if contains_sub remote_lower "gitlab.com"
              || contains_sub remote_lower "gitlab" then some "gitlab"
      else some "unknown"

/-- The `Action` contract of `actions/base.py`: display/category metadata plus
the two required operations.  `execute` mutates the `RepoState` it is given
and returns a success flag; we model it as returning the flag together with
the updated state. -/
structure Action where
  name : String
  description : String
  emoji : String
  category : String
  is_applicable : RepoState → Bool
  execute : RepoState → Bool × RepoState

/-- `Action.get_display_name` (base.py lines 49-51). -/
def get_display_name (a : Action) : String :=
  a.emoji ++ " " ++ a.name

/-- One row of the menu table built in `Menu.display_menu`: a bucket header
(`add_row("", "[bold yellow]...[/bold yellow]", "")`), a spacing row, or a
numbered choice row (`add_row(str(idx), display_name, description)`); the
exit row is the choice row with index 0. -/
inductive MenuRow where
  | header (title : String)
  | blank
  | item (idx : Nat) (display desc : String)
deriving DecidableEq, Repr

/-- `Menu.get_applicable_actions` (menu.py lines 101-103). -/
def get_applicable_actions (actions : List Action) (state : RepoState) :
    List Action :=
  actions.filter (fun a => a.is_applicable state)

/-- The numbered choice rows added by the `for action in ...` loops of
`Menu.display_menu`, with `current_idx` starting at `start`. -/
def number_rows (start : Nat) : List Action → List MenuRow
  | [] => []
  | a :: rest =>
      MenuRow.item start (get_display_name a) a.description
        :: number_rows (start + 1) rest

/-- The rows of the menu table `Menu.display_menu` builds (menu.py lines
116-154) for a non-empty applicable list: the setup bucket (header plus rows)
when non-empty, then the info bucket (spacing row when both buckets are
shown, header, rows) with `current_idx` continuing across the buckets, then
a spacing row and the always-present exit row. -/
def menu_rows (applicable : List Action) : List MenuRow :=
  let setup_actions := applicable.filter (fun a => a.category == "setup")
  let info_actions := applicable.filter (fun a => a.category == "info")
  (if setup_actions.isEmpty then []
   else MenuRow.header "Setup" :: number_rows 1 setup_actions)
  ++ (if info_actions.isEmpty then []
      else (if setup_actions.isEmpty then [] else [MenuRow.blank])
        ++ MenuRow.header "Information"
          :: number_rows (setup_actions.length + 1) info_actions)
  ++ [MenuRow.blank, MenuRow.item 0 "❌ Exit" "Exit git-maestro"]

/-- The menu `Menu.display_menu` presents: none when no action is applicable
(the method prints "Everything looks good" and returns without building a
table, menu.py lines 109-113). -/
def display_menu_rows (actions : List Action) (state : RepoState) :
    Option (List MenuRow) :=
  let applicable := get_applicable_actions actions state
  if applicable.isEmpty then none else some (menu_rows applicable)

/-- The state/result effect of the choice-handling part of
`Menu.display_menu` (menu.py lines 160-197): choice 0 exits; an index out of
range raises `IndexError`, caught and mapped to "try again"; otherwise the
chosen action's `execute` runs and, exactly when it returns `True`, the
driver refreshes the state against the current git environment. -/
def run_choice (genv : GitEnv) (actions : List Action) (state : RepoState)
    (choice : Nat) : Bool × RepoState :=
  let applicable := get_applicable_actions actions state
  if applicable.isEmpty then (false, state)
  else if choice == 0 then (false, state)
  else
    match applicable[choice - 1]? with
    | none => (true, state)
    | some a =>
      let r := a.execute state
      if r.1 then (true, detect_state genv r.2) else (true, r.2)

/-- The fields of a GitHub workflow-run object that
`FetchGithubActionsAction.execute` reads into facts. -/
structure RunInfo where
  run_id : Int
  status : String
  conclusion : Option String
  html_url : String
deriving DecidableEq, Repr

/-- The fields of a GitHub job object that `FetchGithubActionsAction.execute`
reads into facts. -/
structure JobInfo where
  job_id : Int
  name : String
  html_url : String
  conclusion : Option String
deriving DecidableEq, Repr

/-- A nullable string stored into the fact cache (`latest_run.conclusion`
may be `None`). -/
def opt_fact : Option String → FactValue
  | none => .null
  | some s => .str s

/-- Outcome of the external probes `FetchGithubActionsAction.execute`
performs (fetch_github_actions.py lines 108-320).

* `parsed`: result of `_parse_github_url` on the remote URL.
* `token`: result of `_get_stored_token`.
* `runs`: `none` when fetching the workflow runs raises `GithubException`
  (caught at the bottom, returning `False`); otherwise the run list.
* `jobs`: `none` when fetching the latest run's jobs raises
  `GithubException` (caught locally, a warning is printed and the action
  still succeeds); otherwise the job list. -/
structure FetchEnv where
  parsed : Option (String × String)
  token : Option String
  runs : Option (List RunInfo)
  jobs : Option (List JobInfo)
deriving DecidableEq, Repr

/-- `FetchGithubActionsAction.execute`, restricted to its control flow and
its writes into the fact cache (the console rendering is presentation
only). -/
def fetch_execute (env : FetchEnv) (state : RepoState) : Bool × RepoState :=
  match env.parsed with
  | none => (false, state)
  | some _ =>
    match env.token with
    | none => (false, state)
    | some _ =>
      match env.runs with
      | none => (false, state)
      | some rl =>
        match rl.take 10 with
        | [] =>
          (true, state.set_facts
            [("github_actions_checked", .bool true),
             ("github_actions_has_runs", .bool false)])
        | latest :: _ =>
          let s1 := state.set_facts
            [("github_actions_checked", .bool true),
             ("github_actions_has_runs", .bool true),
             ("github_actions_latest_run_id", .int latest.run_id),
             ("github_actions_latest_status", .str latest.status),
             ("github_actions_latest_conclusion", opt_fact latest.conclusion),
             ("github_actions_latest_url", .str latest.html_url)]
          match env.jobs with
          | none => (true, s1)
          | some [] => (true, s1)
          | some job_list =>
            let failed := job_list.filter (fun j => j.conclusion == some "failure")
            (true, s1.set_facts
              [("github_actions_latest_job_count", .int job_list.length),
               ("github_actions_latest_failed_count", .int failed.length),
               ("github_actions_latest_failed_jobs",
                 .jobs (failed.map (fun j => (j.job_id, j.name, j.html_url))))])

/-- `RefreshGithubActionsAction.execute` (refresh_github_actions.py lines
24-31): clear the `github_actions_` fact namespace, then re-run the fetch
action's `execute`. -/
def refresh_execute (env : FetchEnv) (state : RepoState) : Bool × RepoState :=
  fetch_execute env (state.clear_facts_matching "github_actions_")

/-- Modelled from the spec: the classification table of spec §4.1 for
`getRemoteType`, stated from the spec's words — `github.com` → github;
contains `gitlab` → gitlab; present but unmatched → unknown; absent → none
(a missing remote, or a missing/empty URL, is "absent"); case-insensitive.
Used as the refinement target for `RepoState.get_remote_type`. -/
def remote_type_spec (s : RepoState) : Option String :=
  match s.remote_url with
  | none => none
  | some url =>
    if !s.has_remote || url == "" then none
    else
      let remote_lower := str_lower url
      if contains_sub remote_lower "github.com" then some "github"
      else if contains_sub remote_lower "gitlab" then some "gitlab"
      else some "unknown"

/-- The tool arguments object of a `tools/call` request
(`params.get("arguments", {})` in mcp_server.py), restricted to the argument
names the five tools read. -/
structure ToolArgs where
  run_id : Option Int
  job_id : Option Int
  repo_path : Option String
  count : Option Int
deriving DecidableEq, Repr

/-- The `params` object of a JSON-RPC request (`message.get("params", {})`). -/
structure RpcParams where
  name : Option String
  arguments : ToolArgs
deriving DecidableEq, Repr

/-- A parsed JSON-RPC message: `message.get("id")` (absent models JSON null),
`message.get("method")`, `message.get("params", {})`.  Ids are modelled as
integers, which is all the claims need. -/
structure RpcMessage where
  id : Option Int
  method : Option String
  params : RpcParams
deriving DecidableEq, Repr

/-- One line of input to the server loop: either a line `json.loads`
rejects, or a parsed message. -/
inductive InLine where
  | malformed
  | msg (m : RpcMessage)
deriving DecidableEq, Repr

/-- The shape of the one-line JSON response the server prints: a `result`
response or an `error` response with its code, each echoing an id
(`none` models JSON null). -/
inductive RpcOut where
  | result (id : Option Int)
  | error (code : Int) (id : Option Int)
deriving DecidableEq, Repr

/-- Outcome of the external operations the five tool handlers perform.

* `raised`: an exception inside a handler's `try` body (`RepoState`
  construction, action execution) — caught and mapped to `-32603`.
* `download_applicable`, `download_success`: the applicability check and
  execution result of `DownloadJobTracesAction`.
* `list_runs` / `run_jobs`: `none` when the action returns `None`.
* `job_log`: the log file path, `none` on failure.
* `job_status`: whether `check_job_status` returned a non-`None` status. -/
structure ToolEnv where
  raised : Bool
  download_applicable : Bool
  download_success : Bool
  list_runs : Option Nat
  run_jobs : Option Nat
  job_log : Option String
  job_status : Bool
deriving DecidableEq, Repr

/-- Python `if not x` on an optional integer: true for `None` and for 0. -/
def int_falsy : Option Int → Bool
  | none => true
  | some n => n == 0

/-- `MCPServer.call_download_job_traces` (mcp_server.py lines 292-358): every
non-raising path — not applicable, success, failure — returns a `result`
response. -/
def call_download_job_traces (env : ToolEnv) (msg_id : Option Int) : RpcOut :=
  if env.raised then .error (-32603) msg_id
  else if !env.download_applicable then .result msg_id
  else if env.download_success then .result msg_id
  else .result msg_id

/-- `MCPServer.call_list_github_actions_runs` (lines 360-411). -/
def call_list_github_actions_runs (env : ToolEnv) (msg_id : Option Int) :
    RpcOut :=
  if env.raised then .error (-32603) msg_id
  else
    match env.list_runs with
    | none => .error (-32603) msg_id
    | some _ => .result msg_id

/-- `MCPServer.call_get_github_actions_run_jobs` (lines 413-474): the
`if not run_id` guard (absent or zero) yields `-32602` before anything can
raise. -/
def call_get_github_actions_run_jobs (env : ToolEnv) (args : ToolArgs)
    (msg_id : Option Int) : RpcOut :=
  if int_falsy args.run_id then .error (-32602) msg_id
  else if env.raised then .error (-32603) msg_id
  else
    match env.run_jobs with
    | none => .error (-32603) msg_id
    | some _ => .result msg_id

/-- `MCPServer.call_download_github_actions_job_logs` (lines 476-539). -/
def call_download_github_actions_job_logs (env : ToolEnv) (args : ToolArgs)
    (msg_id : Option Int) : RpcOut :=
  if int_falsy args.run_id || int_falsy args.job_id then .error (-32602) msg_id
  else if env.raised then .error (-32603) msg_id
  else
    match env.job_log with
    | none => .error (-32603) msg_id
    | some _ => .result msg_id

/-- `MCPServer.call_check_github_actions_job_status` (lines 541-599). -/
def call_check_github_actions_job_status (env : ToolEnv) (args : ToolArgs)
    (msg_id : Option Int) : RpcOut :=
  if int_falsy args.run_id then .error (-32602) msg_id
  else if env.raised then .error (-32603) msg_id
  else if env.job_status then .result msg_id
  else .error (-32603) msg_id

/-- `MCPServer.handle_call_tool` (lines 265-290): dispatch on the tool name;
any other name (including an absent one) yields `-32601`. -/
def handle_call_tool (env : ToolEnv) (params : RpcParams)
    (msg_id : Option Int) : RpcOut :=
  if params.name == some "download_job_traces" then
    call_download_job_traces env msg_id
  else if params.name == some "list_github_actions_runs" then
    call_list_github_actions_runs env msg_id
  else if params.name == some "get_github_actions_run_jobs" then
    call_get_github_actions_run_jobs env params.arguments msg_id
  else if params.name == some "download_github_actions_job_logs" then
    call_download_github_actions_job_logs env params.arguments msg_id
  else if params.name == some "check_github_actions_job_status" then
    call_check_github_actions_job_status env params.arguments msg_id
  else .error (-32601) msg_id

/-- `MCPServer.process_message` (lines 207-228): dispatch on the method; any
other method (including an absent one) yields `-32601`. -/
def process_message (env : ToolEnv) (m : RpcMessage) : RpcOut :=
  if m.method == some "initialize" then .result m.id
  else if m.method == some "tools/list" then .result m.id
  else if m.method == some "tools/call" then handle_call_tool env m.params m.id
  else .error (-32601) m.id

/-- The per-line behaviour of `MCPServer.handle_message` (lines 144-205):
with a dev-installation error every parsed message is rejected with
`-32603`; otherwise the message is processed; in both modes a line that
fails to parse yields `-32700` with a null id.  Exactly one response is
produced per line. -/
def handle_line (dev_error : Bool) (env : ToolEnv) : InLine → RpcOut
  | .malformed => .error (-32700) none
  | .msg m => if dev_error then .error (-32603) m.id else process_message env m

/-- The `for line in sys.stdin` loop of `MCPServer.handle_message`: one
response line per input line. -/
def server_run (dev_error : Bool) (env : ToolEnv) (lines : List InLine) :
    List RpcOut :=
  lines.map (handle_line dev_error env)

/-! ## Helper lemmas -/

theorem list_starts_trans : ∀ {a b c : List Char}, list_starts a b = true →
    list_starts b c = true → list_starts a c = true := by
  intro a
  induction a with
  | nil => intro b c _ _; rfl
  | cons x xs ih =>
    intro b c h1 h2
    cases b with
    | nil => simp [list_starts] at h1
    | cons y ys =>
      cases c with
      | nil => simp [list_starts] at h2
      | cons z zs =>
        simp only [list_starts, Bool.and_eq_true, beq_iff_eq] at h1 h2 ⊢
        exact ⟨h1.1.trans h2.1, ih h1.2 h2.2⟩

theorem list_sub_mono {n1 n2 : List Char} (hs : list_starts n1 n2 = true) :
    ∀ {h : List Char}, list_sub n2 h = true → list_sub n1 h = true := by
  intro h
  induction h with
  | nil =>
    intro hh
    cases n2 with
    | nil =>
      cases n1 with
      | nil => rfl
      | cons _ _ => simp [list_starts] at hs
    | cons _ _ => simp [list_sub, List.isEmpty] at hh
  | cons c rest ih =>
    intro hh
    simp only [list_sub, Bool.or_eq_true] at hh ⊢
    rcases hh with h1 | h2
    · exact Or.inl (list_starts_trans hs h1)
    · exact Or.inr (ih h2)

theorem contains_sub_gitlab {l : String}
    (h : contains_sub l "gitlab.com" = true) : contains_sub l "gitlab" = true :=
  list_sub_mono (by decide) h

/-- Looking a key up after filtering out the entries whose key starts with
`pre`: a matching key is gone, any other key is unaffected. -/
theorem facts_get?_filter_not_starts (pre k : String) :
    ∀ m : Facts,
      facts_get? (m.filter (fun kv => !(startswith kv.1 pre))) k
        = if startswith k pre then none else facts_get? m k := by
  intro m
  induction m with
  | nil => cases h : startswith k pre <;> simp [facts_get?, h]
  | cons kv rest ih =>
    by_cases hk : kv.1 = k
    · subst hk
      by_cases hs : startswith kv.1 pre
      · simp [List.filter, hs, facts_get?, ih]
      · simp [List.filter, hs, facts_get?, ih]
    · have hk' : (kv.1 == k) = false := by simp [hk]
      by_cases hs2 : startswith kv.1 pre
      · simp [List.filter, hs2, facts_get?, hk', ih]
      · simp [List.filter, hs2, facts_get?, hk', ih]

/-! ## C5: refresh is idempotent and leaves facts (and path) alone -/

/-- C5: `refresh()` is idempotent — running `_detect_state` twice against the
same git environment is the same as running it once — and a refresh never
touches the `facts` mapping or the `path`. -/
theorem refresh_idempotent_facts_untouched (env : GitEnv) (s : RepoState) :
    detect_state env (detect_state env s) = detect_state env s
    ∧ (detect_state env s).facts = s.facts
    ∧ (detect_state env s).path = s.path := by
  obtain ⟨ir, cm, rd, gi, rm, st⟩ := env
  refine ⟨?_, ?_, ?_⟩
  · cases ir
    · rfl
    · rcases cm with _ | ⟨hcb, bn⟩ <;>
        rcases rm with _ | (_ | ⟨u, us⟩) <;>
        rcases st with _ | ⟨d, un, md⟩ <;>
        first
          | rfl
          | (cases hcb <;> rfl)
  · cases ir <;> rfl
  · cases ir <;> rfl

/-! ## C2: prefix invalidation removes exactly the matching keys -/

/-- C2: `clear_facts_matching(pre)` removes exactly the fact entries whose
key starts with `pre` and leaves every other entry's value unchanged; and in
the spec's scenario, after setting
`github_actions_checked / github_actions_latest_status / other`, clearing
the `github_actions_` namespace leaves exactly the `other` entry. -/
theorem clear_facts_matching_exact (s : RepoState) (pre k : String) :
    (facts_get? ((s.clear_facts_matching pre).facts) k
      = if startswith k pre then none else facts_get? s.facts k)
    ∧ (((init_state "/r").set_facts
          [("github_actions_checked", .bool true),
           ("github_actions_latest_status", .str "success"),
           ("other", .int 1)]).clear_facts_matching "github_actions_").facts
        = [("other", FactValue.int 1)] := by
  constructor
  · exact facts_get?_filter_not_starts pre k s.facts
  · decide

/-! ## C7: remote classification matches the spec table -/

/-- C7: `get_remote_type` agrees with the spec's classification table
(`remote_type_spec`): github when the lowercased URL contains `github.com`,
gitlab when it contains `gitlab`, unknown when a URL is present but matches
neither, none when no remote/URL is present — and its result is always one
of those four values. -/
theorem get_remote_type_matches_spec (s : RepoState) :
    s.get_remote_type = remote_type_spec s
    ∧ (s.get_remote_type = none ∨ s.get_remote_type = some "github"
       ∨ s.get_remote_type = some "gitlab"
       ∨ s.get_remote_type = some "unknown") := by
  obtain ⟨p, igr, hc, hr, hg, hrem, ru, bn, ic, uf, mf, fx⟩ := s
  constructor
  · cases ru with
    | none => rfl
    | some url =>
      simp only [RepoState.get_remote_type, remote_type_spec]
      by_cases hcond : (!hrem || url == "") = true
      · simp [hcond]
      · have hcond' : (!hrem || url == "") = false := Bool.eq_false_iff.mpr hcond
        by_cases hgh : contains_sub (str_lower url) "github.com" = true
        · simp [hcond', hgh]
        · have hgh' : _ = false := Bool.eq_false_iff.mpr hgh
          by_cases hgl : contains_sub (str_lower url) "gitlab" = true
          · simp [hcond', hgh', hgl]
          · have hglc : contains_sub (str_lower url) "gitlab.com" = false := by
              cases hcc : contains_sub (str_lower url) "gitlab.com"
              · rfl
              · exact absurd (contains_sub_gitlab hcc) hgl
            have hgl' : _ = false := Bool.eq_false_iff.mpr hgl
            simp [hcond', hgh', hgl', hglc]
  · cases ru with
    | none => exact Or.inl rfl
    | some url =>
      simp only [RepoState.get_remote_type]
      by_cases hcond : (!hrem || url == "") = true
      · simp [hcond]
      · have hcond' : (!hrem || url == "") = false := Bool.eq_false_iff.mpr hcond
        by_cases hgh : contains_sub (str_lower url) "github.com" = true
        · simp [hcond', hgh]
        · have hgh' : _ = false := Bool.eq_false_iff.mpr hgh
          by_cases hgl2 : (contains_sub (str_lower url) "gitlab.com"
              || contains_sub (str_lower url) "gitlab") = true
          · simp [hcond', hgh', hgl2]
          · have hgl2' : _ = false := Bool.eq_false_iff.mpr hgl2
            simp [hcond', hgh', hgl2']

/-! ## C10: github.com takes precedence over gitlab -/

/-- C10: when the lowercased remote URL contains both `github.com` and
`gitlab`, `get_remote_type` returns github — the `github.com` test runs
first. -/
theorem github_check_precedes_gitlab (s : RepoState) (url : String)
    (hrem : s.has_remote = true) (hurl : s.remote_url = some url)
    (hgh : contains_sub (str_lower url) "github.com" = true)
    (hgl : contains_sub (str_lower url) "gitlab" = true) :
    s.get_remote_type = some "github" := by
  have hne : (url == "") = false := by
    cases he : url == ""
    · rfl
    · have hu : url = "" := by simpa using he
      subst hu
      exact absurd hgh (by decide)
  simp [RepoState.get_remote_type, hurl, hrem, hne, hgh]

/-- Witness for C10 at a URL containing both substrings. -/
theorem github_check_precedes_gitlab_witness :
    ({ init_state "/w" with
        has_remote := true
        remote_url := some "https://GitHub.com/acme/gitlab-tools.git"
      } : RepoState).get_remote_type = some "github" :=
  github_check_precedes_gitlab _ "https://GitHub.com/acme/gitlab-tools.git"
    rfl rfl (by decide) (by decide)

/-! ## C4: non-repository paths are a valid default state, never an error -/

/-- Iterated `refresh()` against a sequence of git environments. -/
def refresh_chain (envs : List GitEnv) (s : RepoState) : RepoState :=
  envs.foldl (fun s e => detect_state e s) s

theorem detect_state_non_repo_init (p : String) (env : GitEnv)
    (h : env.is_repo = false) : detect_state env (init_state p) = init_state p := by
  obtain ⟨ir, cm, rd, gi, rm, st⟩ := env
  simp only at h
  subst h
  rfl

theorem refresh_chain_non_repo (p : String) :
    ∀ envs : List GitEnv, (∀ e ∈ envs, e.is_repo = false) →
      refresh_chain envs (init_state p) = init_state p := by
  intro envs
  induction envs with
  | nil => intro _; rfl
  | cons e rest ih =>
    intro h
    have he : e.is_repo = false := h e (List.mem_cons_self e rest)
    show refresh_chain rest (detect_state e (init_state p)) = init_state p
    rw [detect_state_non_repo_init p e he]
    exact ih (fun e' he' => h e' (List.mem_cons_of_mem e he'))

/-- C4: for a path that is not (and never becomes) a repository root,
construction and every subsequent refresh total out to the documented
defaults: `is_git_repo` false and every git-derived field at its zero value.
(`git.Repo` raising `NoSuchPathError` for a missing path is the same caught
case: `NoSuchPathError` subclasses `InvalidGitRepositoryError`.) -/
theorem non_repo_path_defaults (p : String) (env0 : GitEnv)
    (envs : List GitEnv) (h0 : env0.is_repo = false)
    (h : ∀ e ∈ envs, e.is_repo = false) :
    (refresh_chain envs (mk_repo_state p env0)).is_git_repo = false
    ∧ (refresh_chain envs (mk_repo_state p env0)).has_commits = false
    ∧ (refresh_chain envs (mk_repo_state p env0)).branch_name = none
    ∧ (refresh_chain envs (mk_repo_state p env0)).has_readme = false
    ∧ (refresh_chain envs (mk_repo_state p env0)).has_gitignore = false
    ∧ (refresh_chain envs (mk_repo_state p env0)).has_remote = false
    ∧ (refresh_chain envs (mk_repo_state p env0)).remote_url = none
    ∧ (refresh_chain envs (mk_repo_state p env0)).is_clean = true
    ∧ (refresh_chain envs (mk_repo_state p env0)).untracked_files = []
    ∧ (refresh_chain envs (mk_repo_state p env0)).modified_files = [] := by
  have hmk : mk_repo_state p env0 = init_state p :=
    detect_state_non_repo_init p env0 h0
  rw [hmk, refresh_chain_non_repo p envs h]
  exact ⟨rfl, rfl, rfl, rfl, rfl, rfl, rfl, rfl, rfl, rfl⟩

/-- Witness for C4: a missing path probed at construction and across two
refreshes, with the filesystem otherwise busy. -/
theorem non_repo_path_defaults_witness :
    (refresh_chain
        [⟨false, some (true, "main"), true, true, some ["git@github.com:a/b"],
          some (true, ["u.txt"], ["m.txt"])⟩]
        (mk_repo_state "/nowhere" ⟨false, none, false, false, none, none⟩)).is_git_repo
      = false
    ∧ (refresh_chain
        [⟨false, some (true, "main"), true, true, some ["git@github.com:a/b"],
          some (true, ["u.txt"], ["m.txt"])⟩]
        (mk_repo_state "/nowhere" ⟨false, none, false, false, none, none⟩)).remote_url
      = none := by
  have h := non_repo_path_defaults "/nowhere"
    ⟨false, none, false, false, none, none⟩
    [⟨false, some (true, "main"), true, true, some ["git@github.com:a/b"],
      some (true, ["u.txt"], ["m.txt"])⟩]
    rfl
    (by
      intro e he
      cases he with
      | head => rfl
      | tail _ h2 => cases h2)
  exact ⟨h.1, h.2.2.2.2.2.2.1⟩

/-! ## C3: the zero-commit invariant -/

theorem detect_branch_none {env : GitEnv} {s : RepoState}
    (hre : git_realizable env = true)
    (hs : s.has_commits = false → s.branch_name = none)
    (hc : (detect_state env s).has_commits = false) :
    (detect_state env s).branch_name = none := by
  obtain ⟨ir, cm, rd, gi, rm, st⟩ := env
  cases ir
  · exact hs hc
  · rcases cm with _ | ⟨hcb, bn⟩
    · rfl
    · have hre' : hcb = true := hre
      have hcb_false : hcb = false := hc
      exact absurd hcb_false (by simp [hre'])

theorem reachable_branch_none : ∀ {s : RepoState}, Reachable s →
    s.has_commits = false → s.branch_name = none := by
  intro s hs
  induction hs with
  | constructed p env h =>
    exact detect_branch_none h (fun _ => rfl)
  | refreshed s env h _ ih =>
    exact detect_branch_none h ih

theorem detect_no_commits_status {env : GitEnv} {s : RepoState}
    (hre : git_realizable env = true)
    (hc : (detect_state env s).has_commits = false) :
    (detect_state env s).is_clean = s.is_clean
    ∧ (detect_state env s).untracked_files = s.untracked_files
    ∧ (detect_state env s).modified_files = s.modified_files := by
  obtain ⟨ir, cm, rd, gi, rm, st⟩ := env
  cases ir
  · exact ⟨rfl, rfl, rfl⟩
  · rcases cm with _ | ⟨hcb, bn⟩
    · exact ⟨rfl, rfl, rfl⟩
    · have hre' : hcb = true := hre
      have hcb_false : hcb = false := hc
      exact absurd hcb_false (by simp [hre'])

/-- A realizable environment: a repository with one dirty commit history. -/
def cex_env1 : GitEnv :=
  ⟨true, some (true, "main"), false, false, some [],
    some (true, ["a.txt"], ["b.txt"])⟩

/-- A realizable environment seen on a later refresh: still a repository,
but the commits/branch probe now raises (unborn `HEAD`, e.g. after
`git checkout --orphan`). -/
def cex_env2 : GitEnv := ⟨true, none, false, false, some [], none⟩

/-- The state after constructing against `cex_env1` and refreshing against
`cex_env2`. -/
def cex_state : RepoState :=
  detect_state cex_env2 (mk_repo_state "/tmp/demo" cex_env1)

/-- Counterexample to C3 as stated: a reachable state (construction in a
dirty repository with commits, then one refresh after the repository lost
its commit history) in which `has_commits` is false yet `is_clean` is false
and `untracked_files` is non-empty — `_detect_state` only writes the
working-tree fields when `has_commits` is true, so the stale values
survive the refresh. -/
theorem zero_commit_invariant_cex :
    git_realizable cex_env1 = true ∧ git_realizable cex_env2 = true
    ∧ Reachable cex_state
    ∧ cex_state.has_commits = false
    ∧ cex_state.branch_name = none
    ∧ cex_state.is_clean = false
    ∧ cex_state.untracked_files = ["a.txt"]
    ∧ cex_state.modified_files = ["b.txt"] := by
  refine ⟨rfl, rfl, ?_, rfl, rfl, rfl, rfl, rfl⟩
  exact Reachable.refreshed _ cex_env2 rfl
    (Reachable.constructed "/tmp/demo" cex_env1 rfl)

/-- C3 amended: after construction, `has_commits == false` implies
`branch_name == none`, `is_clean == true` and empty file lists (so the
invariant holds for every repository with zero commits at construction);
after a refresh, `has_commits == false` still implies
`branch_name == none`, but the working-tree fields merely keep their
pre-refresh values, so the clean/empty part holds exactly when the
pre-refresh state was already clean with empty lists. -/
theorem zero_commit_invariant_amended (p : String) (env : GitEnv)
    (hre : git_realizable env = true) :
    ((mk_repo_state p env).has_commits = false →
      (mk_repo_state p env).branch_name = none
      ∧ (mk_repo_state p env).is_clean = true
      ∧ (mk_repo_state p env).untracked_files = []
      ∧ (mk_repo_state p env).modified_files = [])
    ∧ (∀ s : RepoState, Reachable s →
        (detect_state env s).has_commits = false →
        (detect_state env s).branch_name = none
        ∧ ((detect_state env s).is_clean = s.is_clean
           ∧ (detect_state env s).untracked_files = s.untracked_files
           ∧ (detect_state env s).modified_files = s.modified_files)) := by
  constructor
  · intro hc
    have hb := detect_branch_none (s := init_state p) hre (fun _ => rfl) hc
    have hst := detect_no_commits_status (s := init_state p) hre hc
    exact ⟨hb, hst.1, hst.2.1, hst.2.2⟩
  · intro s hreach hc
    exact ⟨detect_branch_none hre (reachable_branch_none hreach) hc,
      detect_no_commits_status hre hc⟩

/-- Witness for the amended C3 at a freshly initialised empty repository. -/
theorem zero_commit_invariant_amended_witness :
    (mk_repo_state "/w" ⟨true, none, false, false, none, none⟩).branch_name = none
    ∧ (mk_repo_state "/w" ⟨true, none, false, false, none, none⟩).is_clean = true
    ∧ (mk_repo_state "/w" ⟨true, none, false, false, none, none⟩).untracked_files = []
    ∧ (mk_repo_state "/w" ⟨true, none, false, false, none, none⟩).modified_files = [] :=
  (zero_commit_invariant_amended "/w" ⟨true, none, false, false, none, none⟩
    rfl).1 rfl

/-! ## C6: the refresh action's two-step invalidation protocol -/

theorem filter_map_replace_prefixed (pre k : String) (v : FactValue)
    (hk : startswith k pre = true) :
    ∀ m : Facts,
      (m.map (fun kv => if kv.1 == k then (k, v) else kv)).filter
          (fun kv => !(startswith kv.1 pre))
        = m.filter (fun kv => !(startswith kv.1 pre)) := by
  intro m
  induction m with
  | nil => rfl
  | cons kv rest ih =>
    simp only [List.map_cons]
    by_cases hkv : (kv.1 == k) = true
    · have hkv1 : kv.1 = k := by simpa using hkv
      rw [if_pos hkv]
      rw [List.filter_cons_of_neg (by simp [hk]),
        List.filter_cons_of_neg (by simp [hkv1, hk])]
      exact ih
    · rw [if_neg hkv]
      cases hs : startswith kv.1 pre
      · rw [List.filter_cons_of_pos (by simp [hs]),
          List.filter_cons_of_pos (by simp [hs]), ih]
      · rw [List.filter_cons_of_neg (by simp [hs]),
          List.filter_cons_of_neg (by simp [hs])]
        exact ih

theorem filter_insert_prefixed (pre k : String) (v : FactValue)
    (hk : startswith k pre = true) (m : Facts) :
    (facts_insert m k v).filter (fun kv => !(startswith kv.1 pre))
      = m.filter (fun kv => !(startswith kv.1 pre)) := by
  unfold facts_insert
  by_cases hmem : m.any (fun kv => kv.1 == k) = true
  · simp only [hmem, if_pos]
    exact filter_map_replace_prefixed pre k v hk m
  · simp only [hmem]
    simp [List.filter_append, List.filter, hk]

theorem filter_foldl_insert_prefixed (pre : String) :
    ∀ (new : Facts) (m : Facts),
      (∀ kv ∈ new, startswith kv.1 pre = true) →
      (new.foldl (fun m kv => facts_insert m kv.1 kv.2) m).filter
          (fun kv => !(startswith kv.1 pre))
        = m.filter (fun kv => !(startswith kv.1 pre)) := by
  intro new
  induction new with
  | nil => intro m _; rfl
  | cons kv rest ih =>
    intro m h
    have hkv : startswith kv.1 pre = true := h kv (List.mem_cons_self kv rest)
    show (rest.foldl _ (facts_insert m kv.1 kv.2)).filter _ = _
    rw [ih (facts_insert m kv.1 kv.2)
      (fun kv' h' => h kv' (List.mem_cons_of_mem kv h'))]
    exact filter_insert_prefixed pre kv.1 kv.2 hkv m

theorem clear_set_facts_prefixed (s : RepoState) (pre : String) (new : Facts)
    (hnew : ∀ kv ∈ new, startswith kv.1 pre = true) :
    (s.set_facts new).clear_facts_matching pre = s.clear_facts_matching pre := by
  obtain ⟨p, igr, hc, hr, hg, hrem, ru, bn, ic, uf, mf, fx⟩ := s
  simp only [RepoState.set_facts, RepoState.clear_facts_matching,
    RepoState.mk.injEq, and_true, true_and]
  exact filter_foldl_insert_prefixed pre new fx hnew

/-- C6: the refresh-CI action's `execute` is exactly "clear the
`github_actions_` namespace, then run the fetch action's `execute` on the
cleared state"; the cleared state holds no `github_actions_`-prefixed fact
at all; and consequently the whole outcome is independent of whatever
`github_actions_`-prefixed facts were cached before — no stale namespace
entry can flow into the repopulated state. -/
theorem refresh_ci_two_step_protocol (env : FetchEnv) (s : RepoState) :
    refresh_execute env s
      = fetch_execute env (s.clear_facts_matching "github_actions_")
    ∧ (∀ k, startswith k "github_actions_" = true →
        facts_get? (s.clear_facts_matching "github_actions_").facts k = none)
    ∧ (∀ junk : Facts,
        (∀ kv ∈ junk, startswith kv.1 "github_actions_" = true) →
        refresh_execute env (s.set_facts junk) = refresh_execute env s) := by
  refine ⟨rfl, ?_, ?_⟩
  · intro k hk
    have h := facts_get?_filter_not_starts "github_actions_" k s.facts
    rw [show (s.clear_facts_matching "github_actions_").facts
        = s.facts.filter (fun kv => !(startswith kv.1 "github_actions_"))
      from rfl, h, if_pos hk]
  · intro junk hj
    unfold refresh_execute
    rw [clear_set_facts_prefixed s "github_actions_" junk hj]

/-- Witness for C6 with a cached namespace, an unrelated fact, and a stale
prefixed entry added on top. -/
theorem refresh_ci_two_step_protocol_witness :
    facts_get?
        (((init_state "/w").set_facts
            [("github_actions_checked", .bool true), ("other", .int 1)]
          ).clear_facts_matching "github_actions_").facts
        "github_actions_checked" = none
    ∧ refresh_execute
        ⟨some ("acme", "repo"), some "tok",
          some [⟨7, "completed", some "success", "https://x"⟩], some []⟩
        (((init_state "/w").set_facts
            [("github_actions_checked", .bool true), ("other", .int 1)]
          ).set_facts [("github_actions_stale", .bool true)])
      = refresh_execute
        ⟨some ("acme", "repo"), some "tok",
          some [⟨7, "completed", some "success", "https://x"⟩], some []⟩
        ((init_state "/w").set_facts
          [("github_actions_checked", .bool true), ("other", .int 1)]) := by
  constructor
  · exact (refresh_ci_two_step_protocol
      ⟨some ("acme", "repo"), some "tok",
        some [⟨7, "completed", some "success", "https://x"⟩], some []⟩
      ((init_state "/w").set_facts
        [("github_actions_checked", .bool true), ("other", .int 1)])).2.1
      "github_actions_checked" (by decide)
  · exact (refresh_ci_two_step_protocol
      ⟨some ("acme", "repo"), some "tok",
        some [⟨7, "completed", some "success", "https://x"⟩], some []⟩
      ((init_state "/w").set_facts
        [("github_actions_checked", .bool true), ("other", .int 1)])).2.2
      [("github_actions_stale", .bool true)]
      (by
        intro kv h
        cases h with
        | head => decide
        | tail _ h2 => cases h2)

/-! ## C1: the selector's filter, stable partition and exit row -/

/-- The numbered action entries one expects to read off the menu: index,
display name and description, numbering from `start`. -/
def enum_items (start : Nat) : List Action → List (Nat × String × String)
  | [] => []
  | a :: rest => (start, get_display_name a, a.description) :: enum_items (start + 1) rest

/-- The selectable action rows of a rendered menu: the numbered `item` rows
other than the index-0 exit row. -/
def action_items (rows : List MenuRow) : List (Nat × String × String) :=
  rows.filterMap (fun r =>
    match r with
    | .item i nm ds => if i == 0 then none else some (i, nm, ds)
    | _ => none)

theorem action_items_append (r1 r2 : List MenuRow) :
    action_items (r1 ++ r2) = action_items r1 ++ action_items r2 :=
  List.filterMap_append r1 r2 _

theorem action_items_nil : action_items [] = [] := rfl

theorem action_items_header (t : String) (rows : List MenuRow) :
    action_items (.header t :: rows) = action_items rows := rfl

theorem action_items_blank (rows : List MenuRow) :
    action_items (.blank :: rows) = action_items rows := rfl

theorem action_items_exit_tail :
    action_items [MenuRow.blank, MenuRow.item 0 "❌ Exit" "Exit git-maestro"]
      = [] := rfl

theorem action_items_exit_single :
    action_items [MenuRow.item 0 "❌ Exit" "Exit git-maestro"] = [] := rfl

theorem action_items_item_cons (i : Nat) (nm ds : String)
    (rows : List MenuRow) :
    action_items (.item i nm ds :: rows)
      = if i == 0 then action_items rows
        else (i, nm, ds) :: action_items rows := by
  unfold action_items
  rw [List.filterMap_cons]
  cases h : (i == 0) <;> simp [h]

theorem action_items_number_rows :
    ∀ (l : List Action) (start : Nat), 0 < start →
      action_items (number_rows start l) = enum_items start l := by
  intro l
  induction l with
  | nil => intro start _; rfl
  | cons a rest ih =>
    intro start hstart
    have h0 : (start == 0) = false := by
      cases start with
      | zero => exact absurd hstart (lt_irrefl 0)
      | succ n => rfl
    show action_items (.item start (get_display_name a) a.description
        :: number_rows (start + 1) rest) = _
    rw [action_items_item_cons, h0]
    simp only [Bool.false_eq_true, if_false, enum_items]
    exact congrArg _ (ih (start + 1) (by omega))

theorem enum_items_append :
    ∀ (l1 l2 : List Action) (start : Nat),
      enum_items start (l1 ++ l2)
        = enum_items start l1 ++ enum_items (start + l1.length) l2 := by
  intro l1
  induction l1 with
  | nil => intro l2 start; simp [enum_items]
  | cons a rest ih =>
    intro l2 start
    simp only [List.cons_append, enum_items, List.length_cons, List.append_eq]
    rw [ih]
    have h : start + 1 + rest.length = start + (rest.length + 1) := by omega
    rw [h]

theorem getLast?_append_pair {α : Type} (x y : α) (l : List α) :
    (l ++ [x, y]).getLast? = some y := by
  have h : l ++ [x, y] = (l ++ [x]) ++ [y] := by simp
  rw [h]
  simp

/-- The numbered rows of the rendered menu are exactly the setup bucket then
the info bucket, numbered consecutively from 1 — unconditionally. -/
theorem action_items_menu_rows (applicable : List Action) :
    action_items (menu_rows applicable)
      = enum_items 1 (applicable.filter (fun a => a.category == "setup"))
        ++ enum_items
            ((applicable.filter (fun a => a.category == "setup")).length + 1)
            (applicable.filter (fun a => a.category == "info")) := by
  simp only [menu_rows]
  generalize applicable.filter (fun a => a.category == "setup") = S
  generalize applicable.filter (fun a => a.category == "info") = I
  cases S with
  | nil =>
    cases I with
    | nil => rfl
    | cons i is =>
      simp only [List.isEmpty_nil, List.isEmpty_cons, List.length_nil,
        List.nil_append, Nat.zero_add]
      simp [action_items_append, action_items_header, action_items_exit_tail,
        action_items_number_rows (i :: is) 1 (by omega), enum_items]
  | cons s ss =>
    cases I with
    | nil =>
      simp only [List.isEmpty_nil, List.isEmpty_cons]
      simp [action_items_append, action_items_header, action_items_exit_tail,
        action_items_number_rows (s :: ss) 1 (by omega), enum_items]
    | cons i is =>
      simp only [List.isEmpty_cons]
      simp [action_items_append, action_items_header, action_items_blank,
        action_items_exit_tail, action_items_exit_single,
        action_items_number_rows (s :: ss) 1 (by omega),
        action_items_number_rows (i :: is) (ss.length + 1 + 1) (by omega),
        enum_items]

/-- C1: on each menu cycle the selector filters the registered actions to
the applicable ones, the presented numbered rows are exactly the setup
bucket then the info bucket — both order-preserving filters of the
applicable list, numbered consecutively from 1 — their concatenation is a
permutation of the applicable list (stable partition), and the rendered
menu always ends with the index-0 exit row. -/
theorem selector_stable_partition_exit (actions : List Action)
    (state : RepoState)
    (hcat : ∀ a ∈ actions, a.category = "setup" ∨ a.category = "info")
    (hne : get_applicable_actions actions state ≠ []) :
    display_menu_rows actions state
        = some (menu_rows (get_applicable_actions actions state))
    ∧ action_items (menu_rows (get_applicable_actions actions state))
        = enum_items 1
            ((get_applicable_actions actions state).filter
                (fun a => a.category == "setup")
              ++ (get_applicable_actions actions state).filter
                (fun a => a.category == "info"))
    ∧ List.Perm
        ((get_applicable_actions actions state).filter
            (fun a => a.category == "setup")
          ++ (get_applicable_actions actions state).filter
            (fun a => a.category == "info"))
        (get_applicable_actions actions state)
    ∧ (menu_rows (get_applicable_actions actions state)).getLast?
        = some (MenuRow.item 0 "❌ Exit" "Exit git-maestro") := by
  rcases happ : get_applicable_actions actions state with _ | ⟨a, l⟩
  · exact absurd happ hne
  · have hsub : ∀ x ∈ a :: l, x.category = "setup" ∨ x.category = "info" := by
      intro x hx
      have hx' : x ∈ get_applicable_actions actions state := by
        rw [happ]; exact hx
      exact hcat x (List.mem_of_mem_filter hx')
    refine ⟨?_, ?_, ?_, ?_⟩
    · simp only [display_menu_rows]
      rw [happ]
      rfl
    · rw [action_items_menu_rows, enum_items_append]
      have h : 1 + ((a :: l).filter (fun a => a.category == "setup")).length
          = ((a :: l).filter (fun a => a.category == "setup")).length + 1 := by
        omega
      rw [h]
    · have hq : (a :: l).filter (fun x => x.category == "info")
          = (a :: l).filter (fun x => !(x.category == "setup")) := by
        apply List.filter_congr
        intro x hx
        rcases hsub x hx with h | h <;> rw [h] <;> decide
      rw [hq]
      exact List.filter_append_perm _ _
    · simp only [menu_rows]
      exact getLast?_append_pair _ _ _

/-- A setup action that is always applicable and always succeeds. -/
def wit_setup_action : Action :=
  { name := "Initialize Repository"
    description := "Create a new git repository"
    emoji := "A"
    category := "setup"
    is_applicable := fun _ => true
    execute := fun s => (true, s) }

/-- An info action that is always applicable and always succeeds. -/
def wit_info_action : Action :=
  { name := "Check GitHub Actions Status"
    description := "Gather workflow run information"
    emoji := "B"
    category := "info"
    is_applicable := fun _ => true
    execute := fun s => (true, s) }

/-- A two-action registry for witnesses. -/
def wit_actions : List Action := [wit_setup_action, wit_info_action]

/-- A concrete state for witnesses. -/
def wit_state : RepoState := init_state "/w"

/-- Witness for C1 at the two-action registry. -/
theorem selector_stable_partition_exit_witness :
    display_menu_rows wit_actions wit_state
        = some (menu_rows (get_applicable_actions wit_actions wit_state))
    ∧ action_items (menu_rows (get_applicable_actions wit_actions wit_state))
        = enum_items 1
            ((get_applicable_actions wit_actions wit_state).filter
                (fun a => a.category == "setup")
              ++ (get_applicable_actions wit_actions wit_state).filter
                (fun a => a.category == "info"))
    ∧ List.Perm
        ((get_applicable_actions wit_actions wit_state).filter
            (fun a => a.category == "setup")
          ++ (get_applicable_actions wit_actions wit_state).filter
            (fun a => a.category == "info"))
        (get_applicable_actions wit_actions wit_state)
    ∧ (menu_rows (get_applicable_actions wit_actions wit_state)).getLast?
        = some (MenuRow.item 0 "❌ Exit" "Exit git-maestro") :=
  selector_stable_partition_exit wit_actions wit_state
    (by
      intro a ha
      cases ha with
      | head => exact Or.inl rfl
      | tail _ hb =>
        cases hb with
        | head => exact Or.inr rfl
        | tail _ hc => cases hc)
    (by
      intro h
      have h2 : wit_setup_action :: [wit_info_action] = ([] : List Action) := h
      cases h2)

/-! ## C8: the driver refreshes exactly after a successful execute -/

/-- C8: for a valid menu choice selecting action `a`, the driver refreshes
the state exactly when `a.execute` reports success: on success the result is
the refreshed post-execute state, on failure the post-execute state is
returned untouched by the driver. -/
theorem driver_refresh_iff_success (genv : GitEnv) (actions : List Action)
    (state : RepoState) (choice : Nat) (a : Action) (hch : choice ≠ 0)
    (hget : (get_applicable_actions actions state)[choice - 1]? = some a) :
    ((a.execute state).1 = true →
      run_choice genv actions state choice
        = (true, detect_state genv (a.execute state).2))
    ∧ ((a.execute state).1 = false →
      run_choice genv actions state choice = (true, (a.execute state).2)) := by
  have hne : (get_applicable_actions actions state).isEmpty = false := by
    cases happ : get_applicable_actions actions state with
    | nil => rw [happ] at hget; simp at hget
    | cons x xs => rfl
  have hch' : (choice == 0) = false := by
    cases choice with
    | zero => exact absurd rfl hch
    | succ n => rfl
  constructor
  · intro hsucc
    simp only [run_choice, hne, hch', Bool.false_eq_true, if_false, hget]
    rw [hsucc]
    rfl
  · intro hfail
    simp only [run_choice, hne, hch', Bool.false_eq_true, if_false, hget]
    rw [hfail]
    rfl

/-- Witness for C8 at choice 1 in the two-action registry. -/
theorem driver_refresh_iff_success_witness :
    run_choice ⟨false, none, false, false, none, none⟩ wit_actions wit_state 1
      = (true,
          detect_state ⟨false, none, false, false, none, none⟩
            (wit_setup_action.execute wit_state).2) :=
  (driver_refresh_iff_success ⟨false, none, false, false, none, none⟩
    wit_actions wit_state 1 wit_setup_action (by omega) rfl).1 rfl

/-! ## C9: the JSON-RPC line responses and error codes -/

/-- C9: in normal serving mode the stdio server emits exactly one response
per input line, and classifies errors exactly as claimed: a malformed line
yields `-32700` with a null id; an unknown (or absent) method yields
`-32601`; a `tools/call` naming an unknown tool yields `-32601`; a
`tools/call` of `get_github_actions_run_jobs` with `run_id` missing yields
`-32602`; a failure inside a tool handler (here: an exception with a
present, non-zero `run_id`) yields `-32603`. -/
theorem rpc_line_error_codes (env : ToolEnv) (lines : List InLine)
    (m : RpcMessage) (hm : m.method = some "tools/call")
    (hname : m.params.name = some "get_github_actions_run_jobs")
    (hrun : m.params.arguments.run_id = none) :
    (server_run false env lines).length = lines.length
    ∧ handle_line false env InLine.malformed = RpcOut.error (-32700) none
    ∧ (∀ m2 : RpcMessage, m2.method ≠ some "initialize" →
        m2.method ≠ some "tools/list" → m2.method ≠ some "tools/call" →
        handle_line false env (.msg m2) = RpcOut.error (-32601) m2.id)
    ∧ (∀ m3 : RpcMessage, m3.method = some "tools/call" →
        m3.params.name ≠ some "download_job_traces" →
        m3.params.name ≠ some "list_github_actions_runs" →
        m3.params.name ≠ some "get_github_actions_run_jobs" →
        m3.params.name ≠ some "download_github_actions_job_logs" →
        m3.params.name ≠ some "check_github_actions_job_status" →
        handle_line false env (.msg m3) = RpcOut.error (-32601) m3.id)
    ∧ handle_line false env (.msg m) = RpcOut.error (-32602) m.id
    ∧ (∀ (m4 : RpcMessage) (n : Int), m4.method = some "tools/call" →
        m4.params.name = some "get_github_actions_run_jobs" →
        m4.params.arguments.run_id = some n → n ≠ 0 → env.raised = true →
        handle_line false env (.msg m4) = RpcOut.error (-32603) m4.id) := by
  refine ⟨?_, rfl, ?_, ?_, ?_, ?_⟩
  · simp [server_run]
  · intro m2 h1 h2 h3
    simp [handle_line, process_message, h1, h2, h3]
  · intro m3 hm3 t1 t2 t3 t4 t5
    simp [handle_line, process_message, handle_call_tool, hm3, t1, t2, t3, t4,
      t5]
  · simp [handle_line, process_message, handle_call_tool,
      call_get_github_actions_run_jobs, hm, hname, hrun, int_falsy]
  · intro m4 n hm4 hn4 hr4 hnz hraised
    simp [handle_line, process_message, handle_call_tool,
      call_get_github_actions_run_jobs, hm4, hn4, hr4, hnz, hraised, int_falsy]

/-- Witness for C9: a missing `run_id` on the jobs tool, in a session that
also sees a malformed line. -/
theorem rpc_line_error_codes_witness :
    handle_line false ⟨false, true, true, some 0, some 0, none, false⟩
        (.msg ⟨some 3, some "tools/call",
          ⟨some "get_github_actions_run_jobs", ⟨none, none, none, none⟩⟩⟩)
      = RpcOut.error (-32602) (some 3)
    ∧ (server_run false ⟨false, true, true, some 0, some 0, none, false⟩
        [InLine.malformed]).length = 1 := by
  have h := rpc_line_error_codes ⟨false, true, true, some 0, some 0, none, false⟩
    [InLine.malformed]
    ⟨some 3, some "tools/call",
      ⟨some "get_github_actions_run_jobs", ⟨none, none, none, none⟩⟩⟩
    rfl rfl rfl
  exact ⟨h.2.2.2.2.1, h.1⟩

end GitMaestro
